import Mathlib

/-!
Verification of the modctl model-selection pipeline
(`contrib/scripts/select-top-models.py`) and its offline validator
(`scripts/validate_workflow.py`).

The Python scripts are shallowly embedded here.  External-collaborator data
(the HuggingFace catalog client's `model_info` objects) is modelled by the
`ModelInfo` structure below: every attribute the scripts query is either
absent (`none`, i.e. `hasattr` is false), present with a value, or present
but malformed so that touching it raises (`Py.exn`).  Python exceptions are
modelled with `Except String`; the scripts' `try`/`except` blocks become
explicit matches on the `Except` value at exactly the boundary where the
source catches.  Python floats are modelled as rationals (`ℚ`); the claims
about sizes carry an explicit 0.01 tolerance which absorbs the difference
between binary floats and exact rationals.
-/

/-- A Python attribute value that is present: either a usable value, or a
malformed one whose use raises an exception (`Py.exn`). -/
inductive Py (α : Type) where
  | val : α → Py α
  | exn : String → Py α
deriving DecidableEq

/-- One entry of `model_info.siblings`: a repository file.  `size` is
`none` when the `size` attribute is missing or `None` in Python. -/
structure Sibling where
  rfilename : String
  size : Option Nat
deriving DecidableEq

/-- The subset of a HuggingFace `model_info` object that
`select-top-models.py` queries.  An outer `none` models a missing
attribute (`hasattr` false); `some (Py.exn e)` models a present but
malformed attribute whose use raises.  `config` is abstracted to the
result of `config.get('model_type')` (with `none` for a falsy / empty
config or an absent `model_type` key). -/
structure ModelInfo where
  siblings : Option (Py (List Sibling))
  config : Option (Py (Option String))
  tags : Option (Py (List String))
  downloads : Option Int
  likes : Option Int
deriving DecidableEq

/-- The idiom `hasattr(model_info, 'siblings') and model_info.siblings`
followed by use of the list: `ok none` when the attribute is absent or
the list is empty (falsy), `ok (some l)` for a truthy list, `error`
when the attribute is malformed and using it raises. -/
def siblingsList (mi : ModelInfo) : Except String (Option (List Sibling)) :=
  match mi.siblings with
  | none => .ok none
  | some (.exn e) => .error e
  | some (.val l) => .ok (if l.isEmpty then none else some l)

-- `constants.go`-derived list in select-top-models.py (SUPPORTED_FORMATS).
def SUPPORTED_FORMATS : List String :=
  ["safetensors", "gguf", "bin", "pt", "pth", "onnx"]

-- KNOWN_FAMILIES in select-top-models.py.  In Python this is a `set`;
-- here it is carried as a list.  Wherever the script only tests
-- membership the order is irrelevant; the one place the script
-- *iterates* the set (the substring fallback of `detect_family`) takes
-- the iteration order as an explicit parameter, since CPython fixes a
-- set's iteration order only within one process.
def KNOWN_FAMILIES : List String :=
  ["llama", "qwen", "qwen2", "qwen3", "mistral", "phi", "gpt2", "gpt_neo",
   "gpt_neox", "bloom", "opt", "falcon", "mpt", "stablelm"]

/-!  Python string primitives (`str.lower`, `str.upper`, `str.endswith`,
`needle in s`), implemented directly on the character sequence so that
they compute by structural recursion. -/

/-- Python's `str.lower`. -/
def lowerS (s : String) : String := String.mk (s.toList.map Char.toLower)

/-- Python's `str.upper`. -/
def upperS (s : String) : String := String.mk (s.toList.map Char.toUpper)

/-- Does the second character list start with the first one? -/
def startsWithL : List Char → List Char → Bool
  | [], _ => true
  | _ :: _, [] => false
  | n :: ns, h :: hs => n == h && startsWithL ns hs

/-- Python's `s.endswith(t)`: the reversed text starts with the
reversed suffix. -/
def endsS (s t : String) : Bool :=
  startsWithL t.toList.reverse s.toList.reverse

/-- Python's `needle in hay` substring test on character lists. -/
def containsL (needle : List Char) : List Char → Bool
  | [] => needle.isEmpty
  | h :: hs => startsWithL needle (h :: hs) || containsL needle hs

/-- Python's `needle in s` substring test. -/
def containsS (needle s : String) : Bool :=
  containsL needle.toList s.toList

/-- Sum of the truthy `size` attributes, as in the loop body of
`get_model_size_gb` (`if hasattr(file, 'size') and file.size`). -/
def bytesTotal (l : List Sibling) : Nat :=
  l.foldl (fun acc f =>
    match f.size with
    | some s => if s != 0 then acc + s else acc
    | none => acc) 0

/-- `get_model_size_gb`: total truthy sibling sizes divided by `1024**3`;
any exception in the body is caught and converted to `None`.  Note that
an absent or empty sibling list yields `0.0`, not `None`. -/
def get_model_size_gb (mi : ModelInfo) : Option ℚ :=
  match siblingsList mi with
  | .error _ => none
  | .ok none => some 0
  | .ok (some l) => some ((bytesTotal l : ℚ) / (1024 ^ 3 : ℚ))

/-- `has_config_json`: `True`/`False` normally, Python `None` (here the
outer `none`) when the body raises. -/
def has_config_json (mi : ModelInfo) : Option Bool :=
  match siblingsList mi with
  | .error _ => none
  | .ok none => some false
  | .ok (some l) => some (l.any (fun f => f.rfilename == "config.json"))

/-- The per-file elif chain inside the loop of `get_model_format`,
applied to one (lowercased) filename. -/
def classify_file (rfilename : String) : Option String :=
  let f := lowerS rfilename
  if endsS f ".safetensors" then some "safetensors"
  else if endsS f ".gguf" then some "gguf"
  else if endsS f ".onnx" then some "onnx"
  else if endsS f ".bin" && containsS "pytorch_model" f then some "bin"
  else if endsS f ".pt" || endsS f ".pth" then some "pt"
  else none

/-- `get_model_format`: iterate the siblings in listing order and return
the classification of the first file the elif chain matches; `None` when
no file matches, the listing is absent/empty, or the body raises. -/
def get_model_format (mi : ModelInfo) : Option String :=
  match siblingsList mi with
  | .error _ => none
  | .ok none => none
  | .ok (some l) => l.findSome? (fun f => classify_file f.rfilename)

/-- Greedy matcher for the regex fragment `\d+\.?\d*` at the head of the
character list: returns the matched characters and the rest.  For the
two patterns of `extract_param_size` the greedy parse is equivalent to
Python's backtracking search, because the character required after the
fragment (`B`, `M` or `b`) is neither a digit nor a dot. -/
def numToken (cs : List Char) : Option (List Char × List Char) :=
  let p := cs.span (fun c => c.isDigit)
  if p.1.isEmpty then none
  else
    match p.2 with
    | '.' :: r2 =>
      let q := r2.span (fun c => c.isDigit)
      some (p.1 ++ '.' :: q.1, q.2)
    | r1 => some (p.1, r1)

/-- Pattern 1 of `extract_param_size`, `(\d+\.?\d*[BM])`, anchored at the
head; the captured group includes the final letter. -/
def matchAtP1 (cs : List Char) : Option (List Char) :=
  match numToken cs with
  | some (num, c :: _) => if c == 'B' || c == 'M' then some (num ++ [c]) else none
  | _ => none

/-- Pattern 2 of `extract_param_size`, `(\d+\.?\d*)b`, anchored at the
head; the captured group excludes the trailing `b`. -/
def matchAtP2 (cs : List Char) : Option (List Char) :=
  match numToken cs with
  | some (num, c :: _) => if c == 'b' then some num else none
  | _ => none

/-- `re.search`: try the anchored matcher at each position from the left
and return the first (leftmost) captured group. -/
def searchFrom (m : List Char → Option (List Char)) : List Char → Option (List Char)
  | [] => none
  | c :: cs =>
    match m (c :: cs) with
    | some r => some r
    | none => searchFrom m cs

/-- The shared post-processing of `extract_param_size`:
`size = match.group(1).upper()`, then append `'B'` unless the result
already ends in `'B'` or `'M'`. -/
def normSize (g : List Char) : String :=
  let size := upperS (String.mk g)
  if endsS size "B" || endsS size "M" then size else size ++ "B"

/-- `extract_param_size`: lowercase the identifier, try the two regex
patterns in order, normalize the first hit. -/
def extract_param_size (model_id : String) : Option String :=
  let name := (lowerS model_id).toList
  match searchFrom matchAtP1 name with
  | some g => some (normSize g)
  | none =>
    match searchFrom matchAtP2 name with
    | some g => some (normSize g)
    | none => none

/-- Step (a) of `detect_family`: `model_info.config.get('model_type')`
checked against the known-family set (a membership test, independent of
the set's iteration order). -/
def configHit (mi : ModelInfo) : Except String (Option String) :=
  match mi.config with
  | none => .ok none
  | some (.exn e) => .error e
  | some (.val none) => .ok none
  | some (.val (some t)) => .ok (if KNOWN_FAMILIES.contains t then some t else none)

/-- Step (b) of `detect_family`: first tag (in tag-list order) that is a
member of the known-family set. -/
def tagHit (mi : ModelInfo) : Except String (Option String) :=
  match mi.tags with
  | none => .ok none
  | some (.exn e) => .error e
  | some (.val ts) => .ok (ts.find? (fun t => KNOWN_FAMILIES.contains t))

/-- Step (c) of `detect_family`: first family, in the given iteration
order of the `KNOWN_FAMILIES` set, occurring as a substring of the
lowercased identifier. -/
def nameHit (order : List String) (model_id : String) : Option String :=
  order.find? (fun fam => containsS fam (lowerS model_id))

/-- `detect_family`: config hit, then tag hit, then substring fallback;
the whole body sits in one `try`, so an exception anywhere yields
`None`.  `order` is the iteration order CPython happens to use for the
`KNOWN_FAMILIES` set in this process. -/
def detect_family (order : List String) (mi : ModelInfo) (model_id : String) :
    Option String :=
  match configHit mi with
  | .error _ => none
  | .ok (some t) => some t
  | .ok none =>
    match tagHit mi with
    | .error _ => none
    | .ok (some t) => some t
    | .ok none => nameHit order model_id

/-- Python's `round(x, 2)`, on rationals: round `x * 100` to an integer
and divide back.  (CPython rounds binary floats half-to-even; on exact
rationals we use Mathlib's `round`.  The two differ only at exact
half-cent values, and every size claim carries a 0.01 tolerance that
dominates the 0.005 rounding step either way.) -/
def roundTo2 (x : ℚ) : ℚ := (round (x * 100) : ℤ) / 100

/-- The normalized, packaging-ready record one accepted candidate
produces (the `metadata` dict of `is_compatible_model`). -/
structure Metadata where
  id : String
  family : String
  arch : String
  format : String
  param_size : String
  size_gb : Option ℚ
  downloads : Int
  likes : Int
deriving DecidableEq

/-- `is_compatible_model`.  `fetch` is the outcome of
`api.model_info(model_id, files_metadata=True)`; the source wraps that
call in its own `try`/`except` and rejects on failure.  The subsequent
checks mirror the source's short-circuit order: config.json presence
(where a `None` from `has_config_json` is falsy, hence rejects), format
detection, then the size ceiling (`if size_gb and size_gb > max_size_gb`,
so an unknown (`None`) or `0.0` size passes).  On acceptance the
metadata dict is built with the "unknown" fallbacks of the source. -/
def is_compatible_model (order : List String) (fetch : Except String ModelInfo)
    (model_id : String) (max_size_gb : ℚ) : Bool × Option Metadata :=
  match fetch with
  | .error _ => (false, none)
  | .ok mi =>
    if has_config_json mi ≠ some true then (false, none)
    else
      match get_model_format mi with
      | none => (false, none)
      | some format_type =>
        let size_gb := get_model_size_gb mi
        if (match size_gb with
            | some s => s != 0 && decide (s > max_size_gb)
            | none => false)
        then (false, none)
        else
          (true, some
            { id := model_id
              family := (detect_family order mi model_id).getD "unknown"
              arch := "transformer"
              format := format_type
              param_size := (extract_param_size model_id).getD "unknown"
              size_gb :=
                match size_gb with
                | some s => if s != 0 then some (roundTo2 s) else none
                | none => none
              downloads := mi.downloads.getD 0
              likes := mi.likes.getD 0 })

/-- One candidate of the ranked stream the catalog client returns:
its identifier, plus the outcome the client will give the evaluator's
`model_info` lookup for it. -/
structure Candidate where
  id : String
  fetch : Except String ModelInfo

/-- All metadata of accepted candidates of the stream, in stream order
(the `if is_compatible and metadata` test of the selector loop). -/
def acceptedOf (order : List String) (max_size_gb : ℚ)
    (stream : List Candidate) : List Metadata :=
  stream.filterMap (fun c =>
    match is_compatible_model order c.fetch c.id max_size_gb with
    | (true, some m) => some m
    | _ => none)

/-- The `for model in models` loop of `select_top_models`: append each
accepted candidate's metadata, and break as soon as
`len(selected) >= limit` — a test that runs only after an append. -/
def select_loop (order : List String) (limit : Int) (max_size_gb : ℚ) :
    List Candidate → List Metadata → List Metadata
  | [], selected => selected
  | c :: rest, selected =>
    match is_compatible_model order c.fetch c.id max_size_gb with
    | (true, some m) =>
      let selected2 := selected ++ [m]
      if (selected2.length : Int) ≥ limit then selected2
      else select_loop order limit max_size_gb rest selected2
    | _ => select_loop order limit max_size_gb rest selected

/-- `select_top_models`: iterate the ranked candidate stream the catalog
client returned (the client is the opaque collaborator; the 10× the
source passes as the client's `limit=fetch_limit` argument shapes the
request, and the `stream` parameter is whatever iterator came back)
starting from an empty accumulator. -/
def select_top_models (order : List String) (limit : Int) (max_size_gb : ℚ)
    (stream : List Candidate) : List Metadata :=
  select_loop order limit max_size_gb stream []

/-!  The offline validator, `scripts/validate_workflow.py`.  Its input is
the JSON the selection script printed, so a descriptor is modelled as an
association list of field names to JSON values. -/

/-- A JSON value as the validator consumes it. -/
inductive JVal where
  | s : String → JVal
  | num : ℚ → JVal
  | null : JVal
deriving DecidableEq

/-- A parsed model descriptor: a JSON object, keys assumed unique. -/
abbrev JModel := List (String × JVal)

/-- `field in model` / `model[field]` lookup. -/
def lookupF (m : JModel) (k : String) : Option JVal := m.lookup k

def required_fields : List String :=
  ["id", "family", "arch", "format", "param_size"]

/-- The soft-warning diagnostic of `validate_models_json` for one
present field (`value == "unknown" and field in ["family", "param_size"]`). -/
def fieldWarn (f : String) (v : JVal) : List String :=
  if v == JVal.s "unknown" && (f == "family" || f == "param_size")
  then [f ++ ": unknown (may need manual specification)"] else []

/-- The inner `for field in required_fields` loop of
`validate_models_json`: a missing field returns `False` for the whole
batch at once; a present field may add a soft warning. -/
def check_fields (m : JModel) : List String → Bool × List String
  | [] => (true, [])
  | f :: fs =>
    match lookupF m f with
    | none => (false, ["Missing field: " ++ f])
    | some v =>
      let rest := check_fields m fs
      (rest.1, fieldWarn f v ++ rest.2)

/-- Python truthiness of a JSON value. -/
def truthyJ : JVal → Bool
  | .num q => q != 0
  | .s str => str != ""
  | .null => false

/-- The diagnostic-only `size_gb` block at the end of each model's
validation (`if "size_gb" in model and model["size_gb"]`). -/
def sizeWarn (m : JModel) : List String :=
  match lookupF m "size_gb" with
  | some v => if truthyJ v then [] else ["size_gb: Not available"]
  | none => ["size_gb: Not available"]

/-- `validate_models_json`: first component is the returned boolean
(False as soon as any model misses a required field — the early
`return False` stops the batch), second collects the soft-warning
diagnostics printed up to that point. -/
def validate_models_json : List JModel → Bool × List String
  | [] => (true, [])
  | m :: rest =>
    let c := check_fields m required_fields
    if c.1 then
      let r := validate_models_json rest
      (r.1, c.2 ++ sizeWarn m ++ r.2)
    else (false, c.2)

/-- `model.get('size_gb', 0)`: the stored value when the key is present
(even when that value is JSON `null`), the default only when absent. -/
def pyGet (m : JModel) (k : String) (dflt : JVal) : JVal :=
  match lookupF m k with
  | some v => v
  | none => dflt

/-- Step 6 of the validator's `main`:
`total_size = sum(m.get('size_gb', 0) for m in models)` followed by
`estimated_ghcr_size = total_size * 1.1`.  Python's `sum` starts from
the number `0` and adding a non-number (such as `None`) raises
`TypeError`, modelled as `Except.error`. -/
def storage_estimate (models : List JModel) : Except String (ℚ × ℚ) := do
  let total ← models.foldlM (fun acc m =>
    match pyGet m "size_gb" (JVal.num 0) with
    | JVal.num b => Except.ok (acc + b)
    | _ => Except.error "TypeError") (0 : ℚ)
  pure (total, total * (11 / 10))

/-!  Concrete inputs used by the counterexamples and witnesses below. -/

/-- A catalog entry that carries only a file listing (every other
attribute absent), the common case the scripts see. -/
def mkFiles (l : List Sibling) : ModelInfo :=
  { siblings := some (Py.val l), config := none, tags := none,
    downloads := none, likes := none }

/-- A repository listing a pytorch-model `.bin` file before a
`.safetensors` file. -/
def c1_info : ModelInfo :=
  mkFiles [⟨"pytorch_model.bin", some 1⟩, ⟨"model.safetensors", some 1⟩]

/-- A well-formed candidate: `config.json` plus one 1 GiB
(`1073741824`-byte) safetensors weight file. -/
def mi5 : ModelInfo :=
  mkFiles [⟨"config.json", none⟩, ⟨"model.safetensors", some 1073741824⟩]

/-- The descriptor the evaluator builds for `mi5` under identifier
`"Org/Llama-7B"`. -/
def md5 : Metadata :=
  { id := "Org/Llama-7B", family := "llama", arch := "transformer",
    format := "safetensors", param_size := "7B", size_gb := some 1,
    downloads := 0, likes := 0 }

/-- A candidate whose single weight file is 30 GiB. -/
def mi_oversize : ModelInfo :=
  mkFiles [⟨"config.json", none⟩, ⟨"pytorch_model.bin", some 32212254720⟩]

/-- Like `mi5` but with a malformed `config` attribute whose use raises. -/
def mi_cfg_poison : ModelInfo :=
  { siblings := some (Py.val [⟨"config.json", none⟩, ⟨"model.safetensors", some 1073741824⟩]),
    config := some (Py.exn "malformed config"), tags := none,
    downloads := none, likes := none }

/-- The descriptor built for `mi_cfg_poison`: family degrades to
"unknown" because the config exception is swallowed by
`detect_family`. -/
def md_poison : Metadata :=
  { id := "Org/Llama-7B", family := "unknown", arch := "transformer",
    format := "safetensors", param_size := "7B", size_gb := some 1,
    downloads := 0, likes := 0 }

/-- A second possible iteration order of the `KNOWN_FAMILIES` set. -/
def c4_order2 : List String := "qwen" :: KNOWN_FAMILIES.erase "qwen"

/-- A candidate with no usable metadata beyond its identifier. -/
def c4_info : ModelInfo :=
  { siblings := none, config := none, tags := none, downloads := none, likes := none }

/-- A candidate whose config declares `model_type` "llama". -/
def c4_cfg : ModelInfo :=
  { siblings := none, config := some (Py.val (some "llama")), tags := none,
    downloads := none, likes := none }

/-- A selector-produced descriptor whose size was unknown: the
`size_gb` key is present and JSON `null`. -/
def c2_null_model : JModel :=
  [("id", JVal.s "org/model"), ("family", JVal.s "llama"),
   ("arch", JVal.s "transformer"), ("format", JVal.s "safetensors"),
   ("param_size", JVal.s "7B"), ("size_gb", JVal.null),
   ("downloads", JVal.num 100), ("likes", JVal.num 10)]

/-- The same descriptor with the `size_gb` key absent altogether. -/
def c2_nosize_model : JModel :=
  [("id", JVal.s "org/model"), ("family", JVal.s "llama"),
   ("arch", JVal.s "transformer"), ("format", JVal.s "safetensors"),
   ("param_size", JVal.s "7B")]

/-- A descriptor missing the required `param_size` field. -/
def c8_missing : JModel :=
  [("id", JVal.s "org/a"), ("family", JVal.s "llama"),
   ("arch", JVal.s "transformer"), ("format", JVal.s "safetensors")]

/-- A complete descriptor whose `family` degraded to "unknown". -/
def c8_unknown : JModel :=
  [("id", JVal.s "org/b"), ("family", JVal.s "unknown"),
   ("arch", JVal.s "transformer"), ("format", JVal.s "pt"),
   ("param_size", JVal.s "7B"), ("size_gb", JVal.num 2)]

/-!  ## Shared lemmas -/

theorem findSome?_classify_append (pre l : List Sibling)
    (hpre : ∀ g ∈ pre, classify_file g.rfilename = none) :
    (pre ++ l).findSome? (fun f => classify_file f.rfilename)
      = l.findSome? (fun f => classify_file f.rfilename) := by
  induction pre with
  | nil => rfl
  | cons a pre ih =>
    have ha : classify_file a.rfilename = none := hpre a (List.mem_cons_self a pre)
    simp only [List.cons_append, List.findSome?_cons, ha]
    exact ih (fun g hg => hpre g (List.mem_cons_of_mem a hg))

/-- Inversion of the evaluator's accepting branch: a constructed
descriptor means the fetch succeeded, `config.json` was found, a format
was detected, the size check did not fire, and the descriptor is
exactly the metadata dict of the source. -/
theorem metadata_of_accept {order : List String} {fetch : Except String ModelInfo}
    {model_id : String} {mx : ℚ} {md : Metadata}
    (h : (is_compatible_model order fetch model_id mx).2 = some md) :
    ∃ mi fmt, fetch = .ok mi ∧ has_config_json mi = some true ∧
      get_model_format mi = some fmt ∧
      (match get_model_size_gb mi with
       | some s => s != 0 && decide (s > mx)
       | none => false) = false ∧
      md = { id := model_id
             family := (detect_family order mi model_id).getD "unknown"
             arch := "transformer"
             format := fmt
             param_size := (extract_param_size model_id).getD "unknown"
             size_gb :=
               match get_model_size_gb mi with
               | some s => if s != 0 then some (roundTo2 s) else none
               | none => none
             downloads := mi.downloads.getD 0
             likes := mi.likes.getD 0 } := by
  unfold is_compatible_model at h
  split at h
  · simp at h
  · next mi =>
    split at h
    · simp at h
    · next hconf =>
      split at h
      · simp at h
      · next fmt hfmt =>
        dsimp only at h
        split at h
        · simp at h
        · next hsize =>
          simp only [Option.some.injEq] at h
          refine ⟨mi, fmt, rfl, not_ne_iff.mp hconf, hfmt, by simpa using hsize, h.symm⟩

theorem classify_file_range {name fmt : String} (h : classify_file name = some fmt) :
    fmt ∈ ["safetensors", "gguf", "onnx", "bin", "pt"] := by
  unfold classify_file at h
  dsimp only at h
  split_ifs at h <;> simp_all

theorem get_model_format_range {mi : ModelInfo} {fmt : String}
    (h : get_model_format mi = some fmt) :
    fmt ∈ ["safetensors", "gguf", "onnx", "bin", "pt"] := by
  unfold get_model_format at h
  split at h
  · exact absurd h (by simp)
  · exact absurd h (by simp)
  · obtain ⟨a, -, ha⟩ := List.exists_of_findSome?_eq_some h
    exact classify_file_range ha

/-!  ## C1 — format detection vs. listing order -/

/-- C1 counterexample: a repository listing a pytorch-model `.bin` file
before a `.safetensors` file is classified "bin", not "safetensors" —
the fixed suffix priority does not hold across the file listing, so the
claim's order-independence fails. -/
theorem c1_listing_order_counterexample :
    get_model_format c1_info = some "bin" ∧
    get_model_format c1_info ≠ some "safetensors" :=
  ⟨by decide, by decide⟩

/-- C1 (amended): format detection scans the listing in order and the
first file the per-file suffix chain classifies determines the format;
in particular, a repository whose `.safetensors` file is not preceded by
any other file matching a supported pattern is classified "safetensors",
but the result depends on the listing order. -/
theorem c1_first_matching_file_priority (pre post : List Sibling) (f : Sibling)
    (fmt : String)
    (hpre : ∀ g ∈ pre, classify_file g.rfilename = none)
    (hf : classify_file f.rfilename = some fmt) :
    get_model_format
      { siblings := some (Py.val (pre ++ f :: post)), config := none,
        tags := none, downloads := none, likes := none } = some fmt := by
  unfold get_model_format siblingsList
  have hne : (pre ++ f :: post).isEmpty = false := by cases pre <;> rfl
  simp [hne, findSome?_classify_append pre _ hpre, List.findSome?_cons, hf]

/-- Witness for `c1_first_matching_file_priority` at a concrete listing:
a README (no match) followed by a safetensors file followed by a
pytorch-model bin file classifies as "safetensors". -/
theorem c1_first_matching_file_priority_witness :
    get_model_format
      { siblings := some (Py.val [⟨"README.md", none⟩, ⟨"model.safetensors", some 5⟩,
          ⟨"pytorch_model.bin", some 3⟩]),
        config := none, tags := none, downloads := none, likes := none }
      = some "safetensors" :=
  c1_first_matching_file_priority [⟨"README.md", none⟩] [⟨"pytorch_model.bin", some 3⟩]
    ⟨"model.safetensors", some 5⟩ "safetensors" (by decide) (by decide)

/-!  ## C10 — the emitted format enumeration -/

/-- C10: every constructed descriptor's `format` is one of exactly
{"safetensors", "gguf", "onnx", "bin", "pt"}; the value "pth" is never
emitted even though it belongs to the supported-format enumeration,
because files ending in `.pth` are classified "pt". -/
theorem c10_format_enumeration :
    "pth" ∈ SUPPORTED_FORMATS ∧
    classify_file "model.pth" = some "pt" ∧
    ∀ (order : List String) (fetch : Except String ModelInfo) (model_id : String)
      (mx : ℚ) (md : Metadata),
      (is_compatible_model order fetch model_id mx).2 = some md →
        md.format ∈ ["safetensors", "gguf", "onnx", "bin", "pt"] ∧ md.format ≠ "pth" := by
  refine ⟨by decide, by decide, ?_⟩
  intro order fetch model_id mx md h
  obtain ⟨mi, fmt, -, -, hfmt, -, hmd⟩ := metadata_of_accept h
  subst hmd
  have hr := get_model_format_range hfmt
  exact ⟨hr, by fin_cases hr <;> simp⟩

/-!  ## Concrete evaluations of the evaluator (shared by witnesses) -/

theorem mi5_size : get_model_size_gb mi5 = some 1 := by
  unfold get_model_size_gb
  rw [show siblingsList mi5 =
      .ok (some [⟨"config.json", none⟩, ⟨"model.safetensors", some 1073741824⟩]) from rfl]
  dsimp only
  rw [show bytesTotal [⟨"config.json", none⟩, ⟨"model.safetensors", some 1073741824⟩]
      = 1073741824 from by decide]
  norm_num

theorem mi5_accept :
    is_compatible_model KNOWN_FAMILIES (.ok mi5) "Org/Llama-7B" 20 = (true, some md5) := by
  unfold is_compatible_model
  dsimp only
  rw [if_neg (by decide : ¬has_config_json mi5 ≠ some true)]
  rw [show get_model_format mi5 = some "safetensors" from by decide]
  dsimp only
  rw [mi5_size]
  norm_num [md5, roundTo2]
  refine ⟨by decide, by decide, ?_⟩
  decide

theorem mi_oversize_size : get_model_size_gb mi_oversize = some 30 := by
  unfold get_model_size_gb
  rw [show siblingsList mi_oversize =
      .ok (some [⟨"config.json", none⟩, ⟨"pytorch_model.bin", some 32212254720⟩]) from rfl]
  dsimp only
  rw [show bytesTotal [⟨"config.json", none⟩, ⟨"pytorch_model.bin", some 32212254720⟩]
      = 32212254720 from by decide]
  norm_num

theorem mi_poison_size : get_model_size_gb mi_cfg_poison = some 1 := by
  unfold get_model_size_gb
  rw [show siblingsList mi_cfg_poison =
      .ok (some [⟨"config.json", none⟩, ⟨"model.safetensors", some 1073741824⟩]) from rfl]
  dsimp only
  rw [show bytesTotal [⟨"config.json", none⟩, ⟨"model.safetensors", some 1073741824⟩]
      = 1073741824 from by decide]
  norm_num

theorem mi_poison_accept :
    is_compatible_model KNOWN_FAMILIES (.ok mi_cfg_poison) "Org/Llama-7B" 20
      = (true, some md_poison) := by
  unfold is_compatible_model
  dsimp only
  rw [if_neg (by decide : ¬has_config_json mi_cfg_poison ≠ some true)]
  rw [show get_model_format mi_cfg_poison = some "safetensors" from by decide]
  dsimp only
  rw [mi_poison_size]
  norm_num [md_poison, roundTo2]
  refine ⟨by decide, by decide, ?_⟩
  decide

/-!  ## C5 — the size ceiling invariant -/

theorem roundTo2_le {x b : ℚ} (h : x ≤ b) : roundTo2 x ≤ b + 1 / 100 := by
  unfold roundTo2
  have h1 := abs_sub_round (x * 100)
  have h2 := (abs_le.mp h1).1
  have h3 : ((round (x * 100) : ℤ) : ℚ) ≤ x * 100 + 1 / 2 := by linarith
  linarith

/-- C5: a constructed descriptor with a non-null `size_gb` satisfies
`size_gb ≤ maxSizeGB + 0.01` (the 2-decimal rounding tolerance), and a
candidate whose obtainable (truthy) total size exceeds the ceiling is
rejected with no descriptor constructed. -/
theorem c5_size_ceiling :
    (∀ (order : List String) (fetch : Except String ModelInfo) (model_id : String)
       (mx : ℚ) (md : Metadata) (s : ℚ),
       (is_compatible_model order fetch model_id mx).2 = some md →
       md.size_gb = some s → s ≤ mx + 1 / 100) ∧
    (∀ (order : List String) (mi : ModelInfo) (model_id : String) (mx g : ℚ),
       get_model_size_gb mi = some g → g ≠ 0 → mx < g →
       is_compatible_model order (.ok mi) model_id mx = (false, none)) := by
  constructor
  · intro order fetch model_id mx md s hmd hs
    obtain ⟨mi, fmt, -, -, -, hsz, rfl⟩ := metadata_of_accept hmd
    dsimp only at hs
    cases hg : get_model_size_gb mi with
    | none => rw [hg] at hs; simp at hs
    | some g =>
      rw [hg] at hs hsz
      dsimp only at hs hsz
      by_cases hg0 : g = 0
      · rw [hg0] at hs; simp at hs
      · have hgne : (g != 0) = true := by simp [hg0]
        rw [hgne] at hs hsz
        simp only [if_true, Option.some.injEq] at hs
        simp only [Bool.true_and] at hsz
        have : ¬(g > mx) := by simpa using hsz
        exact hs ▸ roundTo2_le (le_of_not_lt this)
  · intro order mi model_id mx g hg hg0 hlt
    unfold is_compatible_model
    dsimp only
    split
    · rfl
    · split
      · rfl
      · rw [hg]
        rw [if_pos]
        simp [hg0, hlt]

/-- Witness for `c5_size_ceiling`: the accepted 1 GiB candidate `mi5`
has rounded size 1 ≤ 20.01, and the 30 GiB candidate is rejected. -/
theorem c5_size_ceiling_witness :
    (1 : ℚ) ≤ 20 + 1 / 100 ∧
    is_compatible_model KNOWN_FAMILIES (.ok mi_oversize) "org/whopper" 20 = (false, none) :=
  ⟨c5_size_ceiling.1 KNOWN_FAMILIES (.ok mi5) "Org/Llama-7B" 20 md5 1 (by rw [mi5_accept]) rfl,
   c5_size_ceiling.2 KNOWN_FAMILIES mi_oversize "org/whopper" 20 30 mi_oversize_size
     (by norm_num) (by norm_num)⟩

/-!  ## C6 — exceptions are contained inside the evaluator -/

/-- C6: the evaluator converts every modelled lookup failure into a
rejection or an "unknown" field, never an escaping exception: a failed
`model_info` fetch rejects; a malformed (raising) file listing rejects
(via the `None` that `has_config_json`'s handler returns); a malformed
config — and likewise a malformed tag list — degrade `family` to
"unknown" in any descriptor still constructed.  The evaluator itself is
a total function: no input makes it propagate an error. -/
theorem c6_error_containment :
    ∀ (order : List String) (model_id : String) (mx : ℚ),
    (∀ e, is_compatible_model order (.error e) model_id mx = (false, none)) ∧
    (∀ (mi : ModelInfo) e, mi.siblings = some (Py.exn e) →
       is_compatible_model order (.ok mi) model_id mx = (false, none)) ∧
    (∀ (mi : ModelInfo) (md : Metadata) e, mi.config = some (Py.exn e) →
       (is_compatible_model order (.ok mi) model_id mx).2 = some md →
       md.family = "unknown") ∧
    (∀ (mi : ModelInfo) (md : Metadata) e, mi.config = none →
       mi.tags = some (Py.exn e) →
       (is_compatible_model order (.ok mi) model_id mx).2 = some md →
       md.family = "unknown") := by
  intro order model_id mx
  refine ⟨fun e => rfl, ?_, ?_, ?_⟩
  · intro mi e hsib
    have hcfg : has_config_json mi = none := by
      unfold has_config_json siblingsList
      rw [hsib]
    unfold is_compatible_model
    dsimp only
    rw [if_pos (by rw [hcfg]; exact fun hh => by cases hh)]
  · intro mi md e hconf hacc
    obtain ⟨mi2, fmt, heq, -, -, -, rfl⟩ := metadata_of_accept hacc
    obtain rfl : mi = mi2 := by cases heq; rfl
    have hdf : detect_family order mi model_id = none := by
      unfold detect_family configHit
      rw [hconf]
    simp [hdf]
  · intro mi md e hconf htags hacc
    obtain ⟨mi2, fmt, heq, -, -, -, rfl⟩ := metadata_of_accept hacc
    obtain rfl : mi = mi2 := by cases heq; rfl
    have hdf : detect_family order mi model_id = none := by
      unfold detect_family configHit tagHit
      rw [hconf, htags]
    simp [hdf]

/-- Witness for `c6_error_containment`: a failed fetch and a poisoned
file listing both reject concretely, and the candidate with the
malformed config is accepted with family "unknown". -/
theorem c6_error_containment_witness :
    is_compatible_model KNOWN_FAMILIES (.error "connection reset") "org/m" 20 = (false, none) ∧
    is_compatible_model KNOWN_FAMILIES
      (.ok { siblings := some (Py.exn "bad listing"), config := none, tags := none,
             downloads := none, likes := none }) "org/m" 20 = (false, none) ∧
    md_poison.family = "unknown" :=
  ⟨(c6_error_containment KNOWN_FAMILIES "org/m" 20).1 "connection reset",
   (c6_error_containment KNOWN_FAMILIES "org/m" 20).2.1
     { siblings := some (Py.exn "bad listing"), config := none, tags := none,
       downloads := none, likes := none } "bad listing" rfl,
   (c6_error_containment KNOWN_FAMILIES "Org/Llama-7B" 20).2.2.1 mi_cfg_poison md_poison
     "malformed config" rfl (by rw [mi_poison_accept])⟩

/-!  ## C4 — determinism of family detection -/

/-- C4 counterexample: two valid iteration orders of the same
`KNOWN_FAMILIES` set (they are permutations of one another) give
different `family` values for the identifier "llama-qwen", which
matches several families; since CPython does not fix a set's iteration
order across processes, repeated runs are not guaranteed the identical
value in multi-match cases. -/
theorem c4_iteration_order_counterexample :
    List.Perm KNOWN_FAMILIES c4_order2 ∧
    detect_family KNOWN_FAMILIES c4_info "llama-qwen" = some "llama" ∧
    detect_family c4_order2 c4_info "llama-qwen" = some "qwen" :=
  ⟨by decide, by decide, by decide⟩

/-- C4 (amended): family detection is a deterministic function of the
configuration, tags, identifier *and* the vocabulary iteration order;
whenever the config `model_type` or a tag resolves the family, the
result is independent of the iteration order (so those cases are stable
across runs); only the identifier-substring fallback depends on the
per-run order of the set. -/
theorem c4_family_order_independence :
    ∀ (o1 o2 : List String) (mi : ModelInfo) (model_id : String),
    ((∃ t, configHit mi = .ok (some t)) ∨
      (configHit mi = .ok none ∧ ∃ t, tagHit mi = .ok (some t))) →
    detect_family o1 mi model_id = detect_family o2 mi model_id := by
  intro o1 o2 mi model_id h
  unfold detect_family
  rcases h with ⟨t, ht⟩ | ⟨hc, t, ht⟩
  · rw [ht]
  · rw [hc, ht]

/-- Witness for `c4_family_order_independence`: a candidate whose config
declares model_type "llama" detects the same family under both
iteration orders. -/
theorem c4_family_order_independence_witness :
    detect_family KNOWN_FAMILIES c4_cfg "some/model"
      = detect_family c4_order2 c4_cfg "some/model" :=
  c4_family_order_independence KNOWN_FAMILIES c4_order2 c4_cfg "some/model"
    (Or.inl ⟨"llama", rfl⟩)

/-!  ## C3 — parameter-size extraction -/

theorem toLower_ne_B_M (c : Char) : c.toLower ≠ 'B' ∧ c.toLower ≠ 'M' := by
  unfold Char.toLower
  dsimp only
  split
  · next h =>
    obtain ⟨h1, h2⟩ := h
    revert h1 h2
    generalize c.toNat = n
    intro h1 h2
    interval_cases n <;> exact ⟨by decide, by decide⟩
  · next h =>
    constructor
    · rintro rfl; exact h (by decide)
    · rintro rfl; exact h (by decide)

theorem numToken_rest_mem {cs num rest : List Char} (h : numToken cs = some (num, rest)) :
    ∀ c ∈ rest, c ∈ cs := by
  unfold numToken at h
  rw [List.span_eq_take_drop] at h
  dsimp only at h
  split at h
  · cases h
  · split at h
    · next r2 heq =>
      rw [List.span_eq_take_drop] at h
      simp only [Option.some.injEq, Prod.mk.injEq] at h
      intro c hc
      rw [← h.2] at hc
      have h1 : r2 ⊆ cs := by
        intro x hx
        have hx2 : x ∈ List.dropWhile (fun c => c.isDigit) cs := by
          rw [heq]; exact List.mem_cons_of_mem _ hx
        exact List.dropWhile_subset _ hx2
      exact h1 (List.dropWhile_subset _ hc)
    · next heq =>
      simp only [Option.some.injEq, Prod.mk.injEq] at h
      intro c hc
      rw [← h.2] at hc
      exact List.dropWhile_subset _ hc

theorem matchAtP1_none {cs : List Char} (h : ∀ c ∈ cs, c ≠ 'B' ∧ c ≠ 'M') :
    matchAtP1 cs = none := by
  unfold matchAtP1
  split
  · next num c tail heq =>
    obtain ⟨hB, hM⟩ := h c (numToken_rest_mem heq c (List.mem_cons_self c tail))
    simp [hB, hM]
  · rfl

theorem searchP1_none {cs : List Char} (h : ∀ c ∈ cs, c ≠ 'B' ∧ c ≠ 'M') :
    searchFrom matchAtP1 cs = none := by
  induction cs with
  | nil => rfl
  | cons c rest ih =>
    unfold searchFrom
    rw [matchAtP1_none h]
    exact ih (fun x hx => h x (List.mem_cons_of_mem c hx))

/-- The `[BM]` pattern of `extract_param_size` can never fire: the
identifier is lowercased first, and lowercasing never produces an
uppercase `B` or `M`. -/
theorem p1_dead (model_id : String) :
    searchFrom matchAtP1 (lowerS model_id).toList = none := by
  apply searchP1_none
  intro c hc
  have he : (lowerS model_id).toList = model_id.toList.map Char.toLower := rfl
  rw [he] at hc
  obtain ⟨a, -, rfl⟩ := List.mem_map.mp hc
  exact toLower_ne_B_M a

/-- C3 counterexample: "opt-350M" has a numeric value followed by the
letter M, so the claim predicts "350M", but extraction finds no match
(the M branch of the pattern is dead) and returns the unknown
sentinel. -/
theorem c3_m_suffix_counterexample :
    extract_param_size "opt-350M" ≠ some "350M" ∧
    extract_param_size "opt-350M" = none :=
  ⟨by decide, by decide⟩

/-- C3 (amended): extraction lowercases the identifier, so only the
literal-`b` pattern can ever match (the `[BM]` pattern never fires on a
lowercased string); the first number followed by `b`/`B` is returned
uppercased with `B` appended, while `M`-suffixed sizes never match and
yield the unknown sentinel.  The spec's three examples hold:
"Llama-7B-Instruct" → "7B", "Qwen2-0.5B" → "0.5B", "phi-1.5" → none
(the unknown sentinel). -/
theorem c3_param_size_b_only :
    (∀ model_id : String, searchFrom matchAtP1 (lowerS model_id).toList = none) ∧
    extract_param_size "Llama-7B-Instruct" = some "7B" ∧
    extract_param_size "Qwen2-0.5B" = some "0.5B" ∧
    extract_param_size "phi-1.5" = none ∧
    extract_param_size "gpt2-350m" = none :=
  ⟨p1_dead, by decide, by decide, by decide, by decide⟩

/-!  ## C2 — the validator's storage estimate -/

/-- C2: the storage-estimate step crashes on the selector's own output.
A descriptor whose `size_gb` key is present with JSON `null` — exactly
what the selector emits when the size is unknown — makes
`sum(m.get('size_gb', 0) ...)` add `None` to a number, raising
`TypeError`; the claimed treat-unknown-as-zero behaviour only covers an
*absent* key.  With the key absent the estimate is (0, 0), and with
numeric sizes 2 and 3 it is (5, 5.5), i.e. the 1.1 overhead factor. -/
theorem c2_storage_estimate_null_typeerror :
    storage_estimate [c2_null_model] = Except.error "TypeError" ∧
    storage_estimate [c2_nosize_model] = Except.ok (0, 0) ∧
    storage_estimate [[("size_gb", JVal.num 2)], [("size_gb", JVal.num 3)]]
      = Except.ok (5, 11 / 2) := by
  refine ⟨rfl, ?_, ?_⟩
  · have h : pyGet c2_nosize_model "size_gb" (JVal.num 0) = JVal.num 0 := by decide
    simp only [storage_estimate, List.foldlM, h]
    norm_num
  · have h2 : pyGet [("size_gb", JVal.num 2)] "size_gb" (JVal.num 0) = JVal.num 2 := by decide
    have h3 : pyGet [("size_gb", JVal.num 3)] "size_gb" (JVal.num 0) = JVal.num 3 := by decide
    simp only [storage_estimate, List.foldlM, h2, h3]
    norm_num [Bind.bind, Except.bind, pure, Except.pure]

/-!  ## C7 / C9 — the selector's accumulation loop -/

/-- The selector loop appends accepted candidates in stream order and
stops after the append that reaches the limit: it computes the prefix of
the accepted sub-stream of length `max (limit - |selected|) 1`.  (The
`max … 1` reflects that the `len(selected) >= limit` test runs only
after an append.) -/
theorem select_loop_spec (order : List String) (limit : Int) (mx : ℚ) :
    ∀ (stream : List Candidate) (selected : List Metadata),
      select_loop order limit mx stream selected =
        selected ++ (acceptedOf order mx stream).take (max (limit - selected.length) 1).toNat := by
  intro stream
  induction stream with
  | nil =>
    intro selected
    simp [select_loop, acceptedOf]
  | cons c rest ih =>
    intro selected
    simp only [select_loop, acceptedOf, List.filterMap_cons]
    rcases hc : is_compatible_model order c.fetch c.id mx with ⟨ok, md⟩
    cases ok with
    | false =>
      cases md with
      | none => dsimp only; rw [ih selected]; rfl
      | some m => dsimp only; rw [ih selected]; rfl
    | true =>
      cases md with
      | none => dsimp only; rw [ih selected]; rfl
      | some m =>
        dsimp only
        by_cases hlim : ((selected ++ [m]).length : Int) ≥ limit
        · rw [if_pos hlim]
          simp only [List.length_append, List.length_singleton] at hlim
          have h1 : (max (limit - (selected.length : Int)) 1).toNat = 1 := by
            push_cast at hlim
            omega
          rw [h1]
          rfl
        · rw [if_neg hlim]
          rw [ih (selected ++ [m])]
          simp only [List.length_append, List.length_singleton] at hlim
          push_cast at hlim
          have hK : (max (limit - (selected.length : Int)) 1).toNat
              = (max (limit - ((selected ++ [m]).length : Int)) 1).toNat + 1 := by
            simp only [List.length_append, List.length_singleton]
            push_cast
            omega
          rw [hK, List.take_succ_cons, List.append_assoc, List.singleton_append]
          rfl

theorem select_top_models_spec (order : List String) (limit : Int) (mx : ℚ)
    (stream : List Candidate) :
    select_top_models order limit mx stream
      = (acceptedOf order mx stream).take (max limit 1).toNat := by
  unfold select_top_models
  rw [select_loop_spec]
  simp

/-- The evaluator's result is either a rejection `(false, none)` or an
acceptance `(true, some m)`; accepted-with-no-metadata never occurs. -/
theorem is_compatible_shape (order : List String) (fetch : Except String ModelInfo)
    (model_id : String) (mx : ℚ) :
    is_compatible_model order fetch model_id mx = (false, none) ∨
    ∃ m, is_compatible_model order fetch model_id mx = (true, some m) := by
  unfold is_compatible_model
  split
  · exact Or.inl rfl
  · split
    · exact Or.inl rfl
    · split
      · exact Or.inl rfl
      · dsimp only
        split
        · exact Or.inl rfl
        · exact Or.inr ⟨_, rfl⟩

theorem accept_fst_true {order : List String} {fetch : Except String ModelInfo}
    {model_id : String} {mx : ℚ}
    (h : (is_compatible_model order fetch model_id mx).1 = true) :
    ∃ m, is_compatible_model order fetch model_id mx = (true, some m) := by
  rcases is_compatible_shape order fetch model_id mx with hr | hr
  · rw [hr] at h
    cases h
  · exact hr

/-- C7: for every positive limit and every candidate stream the catalog
client returns, the selection result has at most `limit` descriptors,
and a shorter result occurs only when the whole stream was consumed (the
result then being exactly all accepted candidates); the shorter list is
returned as a value, not an error. -/
theorem c7_limit_upper_bound (limit : Int) (h : 0 < limit) (order : List String)
    (mx : ℚ) (stream : List Candidate) :
    ((select_top_models order limit mx stream).length : Int) ≤ limit ∧
    (((select_top_models order limit mx stream).length : Int) < limit →
      select_top_models order limit mx stream = acceptedOf order mx stream) := by
  rw [select_top_models_spec]
  have hmax : (max limit 1).toNat = limit.toNat := by omega
  rw [hmax]
  constructor
  · have h1 := List.length_take limit.toNat (acceptedOf order mx stream)
    omega
  · intro hlt
    have h1 := List.length_take limit.toNat (acceptedOf order mx stream)
    apply List.take_of_length_le
    omega

/-- Witness for `c7_limit_upper_bound` at limit 2 over a one-candidate
stream whose candidate is accepted. -/
theorem c7_limit_upper_bound_witness :
    ((select_top_models KNOWN_FAMILIES 2 20 [⟨"Org/Llama-7B", .ok mi5⟩]).length : Int) ≤ 2 ∧
    (((select_top_models KNOWN_FAMILIES 2 20 [⟨"Org/Llama-7B", .ok mi5⟩]).length : Int) < 2 →
      select_top_models KNOWN_FAMILIES 2 20 [⟨"Org/Llama-7B", .ok mi5⟩]
        = acceptedOf KNOWN_FAMILIES 20 [⟨"Org/Llama-7B", .ok mi5⟩]) :=
  c7_limit_upper_bound 2 (by norm_num) KNOWN_FAMILIES 20 [⟨"Org/Llama-7B", .ok mi5⟩]

/-- C9: with `limit = 0` and a stream whose first candidate is accepted,
the selector raises no input-validation error and returns one
descriptor, exceeding the limit — the `len(selected) >= limit` test
runs only after an append, so the length-≤-limit bound fails for
non-positive limits. -/
theorem c9_zero_limit_length_one (order : List String) (mx : ℚ) (c : Candidate)
    (rest : List Candidate)
    (h : (is_compatible_model order c.fetch c.id mx).1 = true) :
    (select_top_models order 0 mx (c :: rest)).length = 1 := by
  obtain ⟨m, hm⟩ := accept_fst_true h
  rw [select_top_models_spec]
  simp [acceptedOf, List.filterMap_cons, hm]

/-- Witness for `c9_zero_limit_length_one`: the accepted candidate `mi5`
under limit 0 yields a singleton result. -/
theorem c9_zero_limit_length_one_witness :
    (select_top_models KNOWN_FAMILIES 0 20 [⟨"Org/Llama-7B", .ok mi5⟩]).length = 1 :=
  c9_zero_limit_length_one KNOWN_FAMILIES 20 ⟨"Org/Llama-7B", .ok mi5⟩ []
    (by show (is_compatible_model KNOWN_FAMILIES (.ok mi5) "Org/Llama-7B" 20).1 = true
        rw [mi5_accept])

/-!  ## C8 — schema validation -/

theorem check_fields_false_iff (m : JModel) (fs : List String) :
    (check_fields m fs).1 = false ↔ ∃ f ∈ fs, lookupF m f = none := by
  induction fs with
  | nil => simp [check_fields]
  | cons f fs ih =>
    unfold check_fields
    cases hf : lookupF m f with
    | none =>
      dsimp only
      constructor
      · intro _; exact ⟨f, List.mem_cons_self f fs, hf⟩
      · intro _; rfl
    | some v =>
      dsimp only
      constructor
      · intro h1
        obtain ⟨g, hg, hgl⟩ := ih.mp h1
        exact ⟨g, List.mem_cons_of_mem f hg, hgl⟩
      · rintro ⟨g, hg, hgl⟩
        rcases List.mem_cons.mp hg with rfl | hg2
        · rw [hf] at hgl; cases hgl
        · exact ih.mpr ⟨g, hg2, hgl⟩

theorem validate_false_iff (models : List JModel) :
    (validate_models_json models).1 = false ↔
      ∃ m ∈ models, ∃ f ∈ required_fields, lookupF m f = none := by
  induction models with
  | nil => simp [validate_models_json]
  | cons m rest ih =>
    unfold validate_models_json
    by_cases hm : (check_fields m required_fields).1 = true
    · rw [if_pos hm]
      dsimp only
      constructor
      · intro h1
        obtain ⟨m2, hmem, hf⟩ := ih.mp h1
        exact ⟨m2, List.mem_cons_of_mem m hmem, hf⟩
      · rintro ⟨m2, hmem, hf⟩
        rcases List.mem_cons.mp hmem with rfl | h2
        · have hfalse := (check_fields_false_iff m2 required_fields).mpr hf
          rw [hfalse] at hm
          cases hm
        · exact ih.mpr ⟨m2, h2, hf⟩
    · have hm2 : (check_fields m required_fields).1 = false :=
        Bool.eq_false_iff.mpr hm
      rw [if_neg (by rw [hm2]; exact Bool.false_ne_true)]
      dsimp only
      constructor
      · intro _
        exact ⟨m, List.mem_cons_self m rest,
          (check_fields_false_iff m required_fields).mp hm2⟩
      · intro _; rfl

theorem check_fields_warn_mem (m : JModel) :
    ∀ (fs : List String) (f0 : String) (v0 : JVal) (w : String),
      (∀ f ∈ fs, (lookupF m f).isSome) → f0 ∈ fs → lookupF m f0 = some v0 →
      w ∈ fieldWarn f0 v0 → w ∈ (check_fields m fs).2 := by
  intro fs
  induction fs with
  | nil => intro f0 v0 w _ hmem; cases hmem
  | cons g gs ih =>
    intro f0 v0 w hall hmem hl hw
    have hg : (lookupF m g).isSome := hall g (List.mem_cons_self g gs)
    obtain ⟨vg, hvg⟩ := Option.isSome_iff_exists.mp hg
    unfold check_fields
    rw [hvg]
    dsimp only
    rcases List.mem_cons.mp hmem with rfl | h2
    · rw [hvg] at hl
      cases hl
      exact List.mem_append_left _ hw
    · exact List.mem_append_right _
        (ih f0 v0 w (fun f hf => hall f (List.mem_cons_of_mem g hf)) h2 hl hw)

/-- C8: schema validation returns failure for the whole batch exactly
when some descriptor lacks one of the required fields
{id, family, arch, format, param_size} — even if every other descriptor
is valid — and the early `return False` stops at the first such
descriptor; a present value "unknown" in a degradable field never causes
failure, only a soft warning (the warning stream is non-empty while the
batch still validates). -/
theorem c8_required_fields_batch_failure :
    (∀ models : List JModel,
      (validate_models_json models).1 = false ↔
        ∃ m ∈ models, ∃ f ∈ required_fields, lookupF m f = none) ∧
    (∀ m : JModel, (∀ f ∈ required_fields, (lookupF m f).isSome) →
      lookupF m "family" = some (JVal.s "unknown") →
      (validate_models_json [m]).1 = true ∧ (validate_models_json [m]).2 ≠ []) := by
  refine ⟨validate_false_iff, ?_⟩
  intro m hall hfam
  have hc : (check_fields m required_fields).1 = true := by
    rcases h : (check_fields m required_fields).1 with _ | _
    · obtain ⟨f, hf, hnone⟩ := (check_fields_false_iff m required_fields).mp h
      have hsome := hall f hf
      rw [hnone] at hsome
      cases hsome
    · rfl
  have hw : "family: unknown (may need manual specification)"
      ∈ (check_fields m required_fields).2 := by
    apply check_fields_warn_mem m required_fields "family" (JVal.s "unknown") _ hall _ hfam
    · simp [fieldWarn]
    · decide
  constructor
  · unfold validate_models_json
    rw [if_pos hc]
    rfl
  · unfold validate_models_json
    rw [if_pos hc]
    dsimp only
    intro hempty
    rw [List.append_assoc] at hempty
    have hnil := List.append_eq_nil.mp hempty
    rw [hnil.1] at hw
    cases hw

/-- Witness for `c8_required_fields_batch_failure`: a batch holding one
valid descriptor and one missing `param_size` fails, while the valid
descriptor with family "unknown" alone validates with a warning. -/
theorem c8_required_fields_batch_failure_witness :
    (validate_models_json [c8_unknown, c8_missing]).1 = false ∧
    (validate_models_json [c8_unknown]).1 = true ∧
    (validate_models_json [c8_unknown]).2 ≠ [] :=
  ⟨(c8_required_fields_batch_failure.1 [c8_unknown, c8_missing]).mpr
     ⟨c8_missing, by decide, "param_size", by decide, by decide⟩,
   (c8_required_fields_batch_failure.2 c8_unknown (by decide) (by decide)).1,
   (c8_required_fields_batch_failure.2 c8_unknown (by decide) (by decide)).2⟩

/-- Witness for `c10_format_enumeration`: the concrete accepted
descriptor `md5` has format "safetensors", in the enumeration and not
"pth". -/
theorem c10_format_enumeration_witness :
    md5.format ∈ ["safetensors", "gguf", "onnx", "bin", "pt"] ∧ md5.format ≠ "pth" :=
  c10_format_enumeration.2.2 KNOWN_FAMILIES (.ok mi5) "Org/Llama-7B" 20 md5
    (by rw [mi5_accept])
